import Mathlib

/-!
Verification of the date-utility library in src/core-js-dates-tasks.js.

Modelling conventions (shallow embedding of the JavaScript source):

* A JavaScript `Date` value is its timestamp: an integer number of
  milliseconds since the Unix epoch (`t : Int`).
* The runtime's local timezone is modelled as a constant offset of `tz`
  minutes east of UTC (`localMs tz t = t + tz * 60000`); daylight-saving
  transitions are outside the model.  All theorems quantify over `tz`.
* JavaScript numbers are modelled by exact integers (`Int`); the arithmetic
  performed by the source on date quantities stays well inside the range
  where IEEE-754 doubles are exact.  The JavaScript value `NaN`, which
  arises from unparseable dates, is modelled by `Option.none`.
* Calendar conversions follow the proleptic Gregorian calendar used by
  ECMAScript: `daysFromCivil`/`civilFromDays` are the standard
  Hinnant era-based algorithms.  The legacy remapping of two-digit years
  by the `Date` constructor is not modelled; every date of interest to the
  specification has a four-digit year.
-/

namespace CoreJsDates

/-- Gregorian leap-year test, as ECMAScript computes it. -/
def isLeap (y : Int) : Bool :=
  (y % 4 == 0 && y % 100 != 0) || y % 400 == 0

/-- Number of days in month `m` (1..12) of year `y`. -/
def monthLen (y m : Int) : Int :=
  if m = 1 then 31 else if m = 2 then (if isLeap y then 29 else 28)
  else if m = 3 then 31 else if m = 4 then 30 else if m = 5 then 31
  else if m = 6 then 30 else if m = 7 then 31 else if m = 8 then 31
  else if m = 9 then 30 else if m = 10 then 31 else if m = 11 then 30
  else 31

/-- Shifted year of the era-based calendar algorithm: the year starting in
March, so the possible leap day falls at the end. -/
def dcShiftYear (y m : Int) : Int := if m ≤ 2 then y - 1 else y

/-- Day of the shifted year (0 = March 1) of civil (m, d). -/
def dcDoy (m d : Int) : Int := (153 * ((m + 9) % 12) + 2) / 5 + d - 1

/-- Day of the 400-year era of civil (y, m, d). -/
def dcDoe (y m d : Int) : Int :=
  dcShiftYear y m % 400 * 365 + dcShiftYear y m % 400 / 4
    - dcShiftYear y m % 400 / 100 + dcDoy m d

/-- Days since 1970-01-01 of the civil date (y, m, d), month 1-based. -/
def daysFromCivil (y m d : Int) : Int :=
  dcShiftYear y m / 400 * 146097 + dcDoe y m d - 719468

/-- Day of era recovered from a day number. -/
def cdDoe (z : Int) : Int := (z + 719468) % 146097

/-- Era recovered from a day number. -/
def cdEra (z : Int) : Int := (z + 719468) / 146097

/-- Year of era recovered from a day number. -/
def cdYoe (z : Int) : Int :=
  (cdDoe z - cdDoe z / 1460 + cdDoe z / 36524 - cdDoe z / 146096) / 365

/-- Day of shifted year recovered from a day number. -/
def cdDoy (z : Int) : Int :=
  cdDoe z - (365 * cdYoe z + cdYoe z / 4 - cdYoe z / 100)

/-- Shifted month (0 = March) recovered from a day number. -/
def cdMp (z : Int) : Int := (5 * cdDoy z + 2) / 153

/-- Day of month recovered from a day number. -/
def cdDay (z : Int) : Int := cdDoy z - (153 * cdMp z + 2) / 5 + 1

/-- Civil month (1..12) recovered from a day number. -/
def cdMonth (z : Int) : Int := cdMp z + (if cdMp z < 10 then 3 else -9)

/-- Civil year recovered from a day number. -/
def cdYear (z : Int) : Int :=
  cdYoe z + cdEra z * 400 + (if cdMonth z ≤ 2 then 1 else 0)

/-- Civil date (y, m, d) of a day number (days since 1970-01-01). -/
def civilFromDays (z : Int) : Int × Int × Int := (cdYear z, cdMonth z, cdDay z)

set_option maxHeartbeats 4000000 in
/-- Correctness of the year-of-era recovery formula of `cdYoe`. -/
theorem yoe_recover (yoe doy : Int) (h1 : 0 ≤ yoe) (h2 : yoe ≤ 399)
    (h3 : 0 ≤ doy) (h4 : doy ≤ 365)
    (h5 : doy = 365 → (yoe % 4 = 3 ∧ yoe % 100 ≠ 99) ∨ yoe = 399) :
    (yoe * 365 + yoe / 4 - yoe / 100 + doy
      - (yoe * 365 + yoe / 4 - yoe / 100 + doy) / 1460
      + (yoe * 365 + yoe / 4 - yoe / 100 + doy) / 36524
      - (yoe * 365 + yoe / 4 - yoe / 100 + doy) / 146096) / 365 = yoe := by
  interval_cases yoe <;> omega

/-- Bounds for the day of the shifted year, and the leap-year side condition
needed by `yoe_recover`: day 365 exists only at the end of a leap February. -/
theorem doy_bounds (y m d : Int) (hm1 : 1 ≤ m) (hm2 : m ≤ 12) (hd1 : 1 ≤ d)
    (hd2 : d ≤ monthLen y m) :
    0 ≤ dcDoy m d ∧ dcDoy m d ≤ 365 ∧
      (dcDoy m d = 365 →
        (dcShiftYear y m % 400 % 4 = 3 ∧ dcShiftYear y m % 400 % 100 ≠ 99) ∨
          dcShiftYear y m % 400 = 399) := by
  unfold monthLen isLeap at hd2
  unfold dcDoy dcShiftYear
  simp only [Bool.or_eq_true, Bool.and_eq_true, beq_iff_eq, bne_iff_ne] at hd2
  interval_cases m <;> simp_all <;> (try split_ifs at hd2) <;> omega

/-- The day of era of a valid civil date lies in [0, 146096]. -/
theorem doe_bounds (y m d : Int) (hm1 : 1 ≤ m) (hm2 : m ≤ 12) (hd1 : 1 ≤ d)
    (hd2 : d ≤ monthLen y m) : 0 ≤ dcDoe y m d ∧ dcDoe y m d ≤ 146096 := by
  obtain ⟨a, b, c⟩ := doy_bounds y m d hm1 hm2 hd1 hd2
  unfold dcDoe
  omega

set_option maxHeartbeats 1000000 in
/-- The civil-date conversions are mutually inverse on valid dates. -/
theorem civil_roundtrip (y m d : Int) (hm1 : 1 ≤ m) (hm2 : m ≤ 12) (hd1 : 1 ≤ d)
    (hd2 : d ≤ monthLen y m) :
    civilFromDays (daysFromCivil y m d) = (y, m, d) := by
  obtain ⟨z, hz⟩ : ∃ z, daysFromCivil y m d = z := ⟨_, rfl⟩
  obtain ⟨hq0, hq1⟩ := doe_bounds y m d hm1 hm2 hd1 hd2
  have h1 : cdDoe z = dcDoe y m d := by
    rw [← hz]; unfold cdDoe daysFromCivil; omega
  have h2 : cdEra z = dcShiftYear y m / 400 := by
    rw [← hz]; unfold cdEra daysFromCivil; omega
  have h3 : cdYoe z = dcShiftYear y m % 400 := by
    obtain ⟨hb0, hb1, hb2⟩ := doy_bounds y m d hm1 hm2 hd1 hd2
    unfold cdYoe
    rw [h1]
    unfold dcDoe
    exact yoe_recover _ _ (by omega) (by omega) hb0 hb1 hb2
  have h4 : cdDoy z = dcDoy m d := by
    unfold cdDoy
    rw [h1, h3]
    unfold dcDoe
    omega
  have h5 : cdMp z = (m + 9) % 12 := by
    unfold cdMp
    rw [h4]
    unfold dcDoy
    unfold monthLen isLeap at hd2
    simp only [Bool.or_eq_true, Bool.and_eq_true, beq_iff_eq, bne_iff_ne] at hd2
    interval_cases m <;> simp_all <;> (try split_ifs at hd2) <;> omega
  have h6 : cdDay z = d := by
    unfold cdDay
    rw [h4, h5]
    unfold dcDoy
    omega
  have h7 : cdMonth z = m := by
    unfold cdMonth
    rw [h5]
    split_ifs <;> omega
  have h8 : cdYear z = y := by
    unfold cdYear
    rw [h2, h3, h7]
    unfold dcShiftYear
    split_ifs <;> omega
  rw [hz] at *
  unfold civilFromDays
  rw [h6, h7, h8]

/-! ## The JavaScript `Date` model -/

def msPerSecond : Int := 1000
def msPerMinute : Int := 60000
def msPerHour : Int := 3600000
def msPerDay : Int := 86400000

/-- Milliseconds since the epoch on the local clock (offset `tz` minutes). -/
def localMs (tz t : Int) : Int := t + tz * msPerMinute

/-- Local day number (days since 1970-01-01, local clock) of a timestamp. -/
def localDayNumber (tz t : Int) : Int := localMs tz t / msPerDay

/-- Milliseconds elapsed since local midnight. -/
def msOfDay (tz t : Int) : Int := localMs tz t % msPerDay

/-- JS `date.getDay()`: local weekday, 0 = Sunday .. 6 = Saturday.
1970-01-01 was a Thursday (= 4). -/
def jsGetDay (tz t : Int) : Int := (localDayNumber tz t + 4) % 7

/-- JS `date.getFullYear()`: local calendar year. -/
def jsGetFullYear (tz t : Int) : Int := (civilFromDays (localDayNumber tz t)).1

/-- JS `date.getMonth()`: local month index, 0 = January .. 11 = December. -/
def jsGetMonth (tz t : Int) : Int := (civilFromDays (localDayNumber tz t)).2.1 - 1

/-- JS `date.getDate()`: local day of month, 1-based. -/
def jsGetDate (tz t : Int) : Int := (civilFromDays (localDayNumber tz t)).2.2

/-- JS `date.getHours()`. -/
def jsGetHours (tz t : Int) : Int := msOfDay tz t / msPerHour

/-- JS `date.getMinutes()`. -/
def jsGetMinutes (tz t : Int) : Int := msOfDay tz t / msPerMinute % 60

/-- JS `date.getSeconds()`. -/
def jsGetSeconds (tz t : Int) : Int := msOfDay tz t / msPerSecond % 60

/-- JS `date.getUTCDate()`. -/
def jsGetUTCDate (t : Int) : Int := jsGetDate 0 t

/-- JS `date.getUTCHours()`. -/
def jsGetUTCHours (t : Int) : Int := jsGetHours 0 t

/-- JS `new Date(year, monthIndex, day, hours, minutes, seconds, ms)` with
the local-time interpretation: out-of-range month indices and days carry
over arithmetically, exactly as the ECMAScript `MakeDay`/`MakeDate`
normalisation does. -/
def mkDateTs (tz y monthIndex d h mi s ms : Int) : Int :=
  daysFromCivil (y + monthIndex / 12) (monthIndex % 12 + 1) d * msPerDay
    + h * msPerHour + mi * msPerMinute + s * msPerSecond + ms
    - tz * msPerMinute

/-- JS `date.setDate(n)`: replaces the local day of month by `n`, keeping
the time of day, which shifts the timestamp by `(n - getDate) ` days. -/
def jsSetDate (tz t n : Int) : Int := t + (n - jsGetDate tz t) * msPerDay

/-- JS `Math.round(a / b)` for exact integer `a` and positive integer `b`:
round-half-up (toward plus infinity), as floor of `a/b + 1/2`. -/
def roundDiv (a b : Int) : Int := (2 * a + b) / (2 * b)


/-! ## String utilities used by the source -/

/-- Numeric value of a decimal digit character. -/
def digitVal (c : Char) : Int := (c.toNat : Int) - 48

/-- Two decimal digits as a number. -/
def d2 (a b : Char) : Option Int :=
  if a.isDigit && b.isDigit then some (digitVal a * 10 + digitVal b) else none

/-- Three decimal digits as a number. -/
def d3 (a b c : Char) : Option Int :=
  if a.isDigit && b.isDigit && c.isDigit then
    some (digitVal a * 100 + digitVal b * 10 + digitVal c)
  else none

/-- Four decimal digits as a number. -/
def d4 (a b c d : Char) : Option Int :=
  if a.isDigit && b.isDigit && c.isDigit && d.isDigit then
    some (digitVal a * 1000 + digitVal b * 100 + digitVal c * 10 + digitVal d)
  else none

/-- JS `String.prototype.padStart(2, '0')`. -/
def padStart2 (s : String) : String :=
  if s.length = 0 then "00" else if s.length = 1 then "0" ++ s else s

/-- All-digit string read as a number; `none` models JS `NaN`. -/
def digitsToNat? (l : List Char) : Option Nat :=
  match l with
  | [] => none
  | _ =>
    if l.all Char.isDigit then
      some (l.foldl (fun acc c => acc * 10 + (c.toNat - 48)) 0)
    else none

/-- JS comparison `s > 0` between a digit string and the number zero:
ToNumber is applied to the string; a NaN comparison is false.  The source
compares the zero-padded minutes string against a number this way. -/
def jsStrGtZero (s : String) : Bool :=
  match digitsToNat? s.data with
  | some n => decide (0 < n)
  | none => false

/-- Timestamp of a UTC civil date and time. -/
def utcTs (y mo d h mi se ms : Int) : Int :=
  daysFromCivil y mo d * msPerDay + h * msPerHour + mi * msPerMinute
    + se * msPerSecond + ms

/-- Range validity of a civil date, as ECMAScript date-string parsing
enforces it (out-of-range fields give an invalid date). -/
def validDate (y mo d : Int) : Bool :=
  1 ≤ mo && mo ≤ 12 && 1 ≤ d && d ≤ monthLen y mo

/-- Model of JS date-string parsing (`Date.parse` / `new Date(string)`),
restricted to the ISO 8601 shapes exercised by the specification:
`YYYY-MM-DD` and `YYYY-MM-DDTHH:mm:ss.sssZ`, both UTC.  Anything else is
treated as unrecognised (`none`, the invalid date whose time value is NaN).
-/
def parseDate (s : String) : Option Int :=
  match s.data with
  | [y1, y2, y3, y4, '-', a1, a2, '-', b1, b2] => do
      let y ← d4 y1 y2 y3 y4
      let mo ← d2 a1 a2
      let d ← d2 b1 b2
      if validDate y mo d then some (utcTs y mo d 0 0 0 0) else none
  | [y1, y2, y3, y4, '-', a1, a2, '-', b1, b2, 'T',
     h1, h2, ':', m1, m2, ':', s1, s2, '.', x1, x2, x3, 'Z'] => do
      let y ← d4 y1 y2 y3 y4
      let mo ← d2 a1 a2
      let d ← d2 b1 b2
      let h ← d2 h1 h2
      let mi ← d2 m1 m2
      let se ← d2 s1 s2
      let ms ← d3 x1 x2 x3
      if validDate y mo d && h ≤ 23 && mi ≤ 59 && se ≤ 59 then
        some (utcTs y mo d h mi se ms)
      else none
  | _ => none

/-! ## The source functions

Each definition below embeds the function of the same name from
src/core-js-dates-tasks.js.  `tz` is the runtime's local timezone offset
in minutes; functions that never consult local time do not take it.
JavaScript exceptions are modelled by an `Except JsError` result where the
distinction matters to the specification; a body that contains no `throw`
always returns with `Except.ok`. -/

/-- Error kinds named by the specification. -/
inductive JsError
  | parseError
  | invalidArgument
deriving DecidableEq, Repr

/-- Embeds `dateToTimestamp`: `new Date(date).getTime()`.  An unrecognised
string gives an invalid date, whose `getTime()` is the plain number NaN
(`none`); nothing in the body can throw. -/
def dateToTimestamp (s : String) : Except JsError (Option Int) :=
  .ok (parseDate s)

/-- The weekday-to-offset table `bibl` of `getNextFriday`. -/
def bibl (d : Int) : Int :=
  if d = 0 then 5 else if d = 1 then 4 else if d = 2 then 3 else if d = 3 then 2
  else if d = 4 then 1 else if d = 5 then 7 else 6

/-- JS `Date.parse(dateObject)`: the `Date` argument is coerced through
`toString`, which renders the local time only to second precision, so
parsing it back yields the time value with the sub-second part dropped:
`t - (t mod 1000)` (the offset is a whole number of minutes, so the
local rendering's sub-second part equals that of the time value; the
floor-mod handles negative timestamps, which render as the second below).
-/
def jsDateParse (t : Int) : Int := t - t % 1000

/-- Embeds `getNextFriday`: adds `bibl[date.getDay()]` days to
`dateInMilliseconds = Date.parse(date)`, the timestamp truncated to whole
seconds by the `toString` round trip. -/
def getNextFriday (tz t : Int) : Int :=
  msPerDay * bibl (jsGetDay tz t) + jsDateParse t

/-- Embeds `getCountDaysInMonth`: difference of the first of the next
month and the first of the month, in days, rounded.  The successive float
divisions by 1000, 60, 60, 24 are exact here and modelled as one rounded
division. -/
def getCountDaysInMonth (tz month year : Int) : Int :=
  roundDiv (mkDateTs tz year month 1 0 0 0 0
    - mkDateTs tz year (month - 1) 1 0 0 0 0) msPerDay

/-- Embeds `getCountDaysOnPeriod`: `Math.round((end-start)/86400000) + 1`
on the parsed timestamps; a NaN operand propagates to a NaN result
(`none`). -/
def getCountDaysOnPeriod (dateStart dateEnd : String) : Option Int :=
  match parseDate dateStart, parseDate dateEnd with
  | some t1, some t2 => some (roundDiv (t2 - t1) msPerDay + 1)
  | _, _ => none

/-- Embeds the body of `formatDate` after `new Date(date)` succeeded.
Note the quirks kept faithfully: the day and hour are read with the UTC
accessors while month, year, minutes and seconds use the local ones; the
hour is only reduced when strictly greater than 12; and the noon check
compares the padded minutes *string* with the number 0. -/
def formatDateFromTime (tz t : Int) : String :=
  let day := toString (jsGetUTCDate t)
  let month := toString (jsGetMonth tz t + 1)
  let year := toString (jsGetFullYear tz t)
  let hours0 := jsGetUTCHours t
  let minutes := padStart2 (toString (jsGetMinutes tz t))
  let seconds := padStart2 (toString (jsGetSeconds tz t))
  let hp := if hours0 > 12 then (hours0 - 12, "PM") else (hours0, "AM")
  let timeIndex := if hp.1 == 12 && jsStrGtZero minutes then "PM" else hp.2
  month ++ "/" ++ day ++ "/" ++ year ++ ", " ++ toString hp.1 ++ ":"
    ++ minutes ++ ":" ++ seconds ++ " " ++ timeIndex

/-- Embeds `formatDate`.  On an unparseable string every numeric accessor
of the invalid date returns NaN and the template renders the NaN string. -/
def formatDate (tz : Int) (s : String) : String :=
  match parseDate s with
  | some t => formatDateFromTime tz t
  | none => "NaN/NaN/NaN, NaN:NaN:NaN AM"

/-- Embeds `getCountWeekendsInMonth`: day count of the month via
`new Date(year, month, 0).getDate()`, then a count over days 1..daysInMonth
of those whose local weekday is Saturday (6) or Sunday (0). -/
def getCountWeekendsInMonth (tz month year : Int) : Int :=
  let daysInMonth := jsGetDate tz (mkDateTs tz year month 0 0 0 0 0)
  (((List.range daysInMonth.toNat).map (fun (i : Nat) => (i : Int) + 1)).countP
    (fun i =>
      let currentDay := jsGetDay tz (mkDateTs tz year (month - 1) i 0 0 0 0)
      currentDay == 6 || currentDay == 0) : Nat)

/-- The guard of the year-start adjustment loop in `getWeekNumberByDate`:
`firstDayOfYear.getDay() > 4 && firstDayOfYear.getDay() < 1`. -/
def adjustCond (tz ts : Int) : Bool :=
  decide (jsGetDay tz ts > 4) && decide (jsGetDay tz ts < 1)

/-- The `while` loop of `getWeekNumberByDate`, advancing the reference day
by one while the guard holds, written with explicit fuel. -/
def adjustLoop (tz : Int) : Nat → Int → Int
  | 0, ts => ts
  | fuel + 1, ts =>
      if adjustCond tz ts then
        adjustLoop tz fuel (jsSetDate tz ts (jsGetDate tz ts + 1))
      else ts

/-- Embeds `getWeekNumberByDate`: days between the date and the (possibly
adjusted) January 1 of its year, rounded, then `Math.floor(days / 7) + 1`.
-/
def getWeekNumberByDate (tz : Int) (fuel : Nat) (t : Int) : Int :=
  let firstDayOfYear := adjustLoop tz fuel (mkDateTs tz (jsGetFullYear tz t) 0 1 0 0 0 0)
  let diffInDays := roundDiv (t - firstDayOfYear) msPerDay
  diffInDays / 7 + 1

/-- Embeds `getQuarter`: the source compares the full timestamp against
quarter boundary *midnights* built with the local constructor. -/
def getQuarter (tz t : Int) : Int :=
  let y := jsGetFullYear tz t
  let q1start := mkDateTs tz y 0 1 0 0 0 0
  let q1end := mkDateTs tz y 2 31 0 0 0 0
  let q2start := mkDateTs tz y 3 1 0 0 0 0
  let q2end := mkDateTs tz y 5 30 0 0 0 0
  let q3start := mkDateTs tz y 6 1 0 0 0 0
  let q3end := mkDateTs tz y 8 30 0 0 0 0
  if q1start ≤ t ∧ t ≤ q1end then 1
  else if q2start ≤ t ∧ t ≤ q2end then 2
  else if q3start ≤ t ∧ t ≤ q3end then 3
  else 4

/-- Parses one field of the work-schedule period, format `DD-MM-YYYY`
(`split('-').map(Number)` in the source); `none` models the NaN fields of
a malformed string. -/
def parseDmy (s : String) : Option (Int × Int × Int) :=
  match s.data with
  | [a1, a2, '-', b1, b2, '-', c1, c2, c3, c4] => do
      let d ← d2 a1 a2
      let mo ← d2 b1 b2
      let y ← d4 c1 c2 c3 c4
      some (d, mo, y)
  | _ => none

/-- Formats a day in `DD-MM-YYYY`, as the loop body of `getWorkSchedule`
does. -/
def fmtDmy (tz t : Int) : String :=
  padStart2 (toString (jsGetDate tz t)) ++ "-"
    ++ padStart2 (toString (jsGetMonth tz t + 1)) ++ "-"
    ++ toString (jsGetFullYear tz t)

/-- The working-day test of `getWorkSchedule`:
`dayCounter % (countWorkDays + countOffDays) < countWorkDays`.  JS `%` is
the truncating remainder; with a zero divisor it yields NaN and the
comparison is false. -/
def jsWorkCond (dayCounter : Nat) (wd od : Int) : Bool :=
  if wd + od = 0 then false
  else decide (Int.tmod (dayCounter : Int) (wd + od) < wd)

/-- Embeds `getWorkSchedule`.  The `while` loop advances `currentDate` by
exactly one civil day per iteration, so when start ≤ end it runs exactly
`(end - start)/day + 1` times; it is rendered as a filter over the
iteration index.  If a period string is malformed its date fields are NaN,
every comparison with the NaN date is false, the loop body never runs and
the (empty) schedule is still returned — no validation of any argument
happens anywhere in the body, which contains no `throw`. -/
def getWorkSchedule (tz : Int) (periodStart periodEnd : String)
    (countWorkDays countOffDays : Int) : Except JsError (List String) :=
  match parseDmy periodStart, parseDmy periodEnd with
  | some (sd, sm, sy), some (ed, em, ey) =>
      let startDate := mkDateTs tz sy (sm - 1) sd 0 0 0 0
      let endDate := mkDateTs tz ey (em - 1) ed 0 0 0 0
      let n := if startDate ≤ endDate then ((endDate - startDate) / msPerDay + 1).toNat else 0
      .ok ((List.range n).filterMap (fun i =>
        if jsWorkCond i countWorkDays countOffDays then
          some (fmtDmy tz (startDate + (i : Int) * msPerDay))
        else none))
  | _, _ => .ok []


/-! ## Heap model for the Friday-the-13th scan

`getNextFridayThe13th` mutates `Date` objects through aliases, so it is
embedded against an explicit heap: a list of timestamps addressed by
allocation index.  `new Date(...)` appends a cell; `setDate` writes one. -/

/-- Value of heap cell `r`. -/
def heapGet (hp : List Int) (r : Nat) : Int := hp.getD r 0

/-- The first loop of `getNextFridayThe13th`:
`while (nextFriday.getDay() !== 5) nextFriday.setDate(getDate() + 1)`,
mutating cell `r` in place, with explicit fuel. -/
def fridayAdvance (tz : Int) : Nat → List Int → Nat → List Int
  | 0, hp, _ => hp
  | fuel + 1, hp, r =>
      if jsGetDay tz (heapGet hp r) == 5 then hp
      else
        fridayAdvance tz fuel
          (hp.set r (jsSetDate tz (heapGet hp r) (jsGetDate tz (heapGet hp r) + 1))) r

/-- One iteration of the second loop's mutation:
`nextFriday.setDate(nextFriday.getDate() + 7)` on cell `rA`. -/
def bumpWeek (tz : Int) (hp : List Int) (rA : Nat) : List Int :=
  hp.set rA (jsSetDate tz (heapGet hp rA) (jsGetDate tz (heapGet hp rA) + 7))

/-- The second loop of `getNextFridayThe13th`:
`while (result.getDay() !== 5 || result.getDate() !== 13)
   result = new Date(nextFriday.setDate(nextFriday.getDate() + 7))`.
Each iteration mutates cell `rA` and allocates a fresh `result` cell. -/
def scan13 (tz : Int) : Nat → List Int → Nat → Nat → List Int × Nat
  | 0, hp, _, rRes => (hp, rRes)
  | fuel + 1, hp, rA, rRes =>
      if jsGetDay tz (heapGet hp rRes) == 5 && jsGetDate tz (heapGet hp rRes) == 13 then
        (hp, rRes)
      else
        scan13 tz fuel (bumpWeek tz hp rA ++ [heapGet (bumpWeek tz hp rA) rA]) rA
          (bumpWeek tz hp rA).length

/-- Heap after `const currentDay = new Date(date)`: a fresh cell (index
`hp.length`) holding a copy of the argument's value; `nextFriday` aliases
this cell. -/
def ft13Heap1 (hp : List Int) (r : Nat) : List Int := hp ++ [heapGet hp r]

/-- Heap after `nextFriday.setDate(nextFriday.getDate() + 1)` (the
initialiser of `result`): cell `hp.length` advanced by one day. -/
def ft13Heap2 (tz : Int) (hp : List Int) (r : Nat) : List Int :=
  (ft13Heap1 hp r).set hp.length
    (jsSetDate tz (heapGet (ft13Heap1 hp r) hp.length)
      (jsGetDate tz (heapGet (ft13Heap1 hp r) hp.length) + 1))

/-- Heap after `let result = new Date(<that time value>)`: a second fresh
cell holding the advanced value. -/
def ft13Heap3 (tz : Int) (hp : List Int) (r : Nat) : List Int :=
  ft13Heap2 tz hp r ++ [heapGet (ft13Heap2 tz hp r) hp.length]

/-- Embeds `getNextFridayThe13th` over the explicit heap.  The argument is
the reference `r`; the copy and the `result` allocation build the heap
stages above, then the two loops run (`nextFriday` is cell `hp.length`,
the initial `result` is cell `hp.length + 1 = (ft13Heap2 ..).length`).
Returns the heap after the call and the reference to the returned `Date`.
-/
def getNextFridayThe13th (tz : Int) (fuel1 fuel2 : Nat) (hp : List Int)
    (r : Nat) : List Int × Nat :=
  scan13 tz fuel2 (fridayAdvance tz fuel1 (ft13Heap3 tz hp r) hp.length)
    hp.length (ft13Heap2 tz hp r).length

/-! ## Definitions written from the specification text

These are stated from the specification's words, for comparison with the
embedded source functions; they are not translations of the source. -/

/-- Specification 4.2: the quarter from fixed per-year month ranges,
equivalently month index (0-11) div 3 plus 1. -/
def quarterSpec (tz t : Int) : Int := jsGetMonth tz t / 3 + 1

/-- Claim C10: floor(round((date - January 1 of the date's year) / 86400000
ms) / 7) + 1, never adjusting for the weekday of January 1. -/
def weekNumberSpec (tz t : Int) : Int :=
  roundDiv (t - mkDateTs tz (jsGetFullYear tz t) 0 1 0 0 0 0) msPerDay / 7 + 1

/-- Specification 4.3 (ISO-8601 weeks): index of the Monday-started week
containing a local day number.  Day -3 (1969-12-29) was a Monday, so two
days are in the same Monday-started week iff this index agrees. -/
def mondayWeekIndex (z : Int) : Int := (z + 3) / 7

/-- Specification 8 (round-trip property): the number of non-weekend days
of the month, counted over the days 1..monthLen. -/
def nonWeekendCount (tz month year : Int) : Int :=
  (((List.range (monthLen year month).toNat).map (fun (i : Nat) => (i : Int) + 1)).countP
    (fun i =>
      let currentDay := jsGetDay tz (mkDateTs tz year (month - 1) i 0 0 0 0)
      !(currentDay == 6 || currentDay == 0)) : Nat)

/-- Claim C7: round((end - start) / 1 day) + 1. -/
def periodDaysSpec (t1 t2 : Int) : Int := roundDiv (t2 - t1) msPerDay + 1

/-- UTC day number of a timestamp; two timestamps denote the same UTC
calendar day iff these agree. -/
def utcDayNumber (t : Int) : Int := t / msPerDay

/-- Two-digit zero padding of a (nonnegative) numeric field. -/
def pad2 (n : Int) : String := if n < 10 then "0" ++ toString n else toString n

/-- Claims C6 (amended): the format the source actually produces —
"M/D/YYYY, h:mm:ss AM|PM" with no leading zero on month or hour, day and
hour read in UTC, minute and second in local time, month and year local;
the displayed hour is the UTC hour reduced by 12 only when strictly
greater than 12 (so midnight shows 0, not 12), and the suffix is PM
exactly when the UTC hour exceeds 12 or equals 12 with a nonzero local
minute. -/
def formatDateSpec (tz t : Int) : String :=
  let h := jsGetUTCHours t
  let hour12 := if h > 12 then h - 12 else h
  let suffix := if h > 12 ∨ (h = 12 ∧ 0 < jsGetMinutes tz t) then "PM" else "AM"
  toString (jsGetMonth tz t + 1) ++ "/" ++ toString (jsGetUTCDate t) ++ "/"
    ++ toString (jsGetFullYear tz t) ++ ", " ++ toString hour12 ++ ":"
    ++ pad2 (jsGetMinutes tz t) ++ ":" ++ pad2 (jsGetSeconds tz t) ++ " " ++ suffix

/-! ## General lemmas about the date model -/

/-- The weekday is always in 0..6. -/
theorem jsGetDay_bounds (tz t : Int) : 0 ≤ jsGetDay tz t ∧ jsGetDay tz t < 7 := by
  unfold jsGetDay
  exact ⟨Int.emod_nonneg _ (by norm_num), Int.emod_lt_of_pos _ (by norm_num)⟩

/-- Adding whole days shifts the weekday modulo 7. -/
theorem jsGetDay_add_days (tz t k : Int) :
    jsGetDay tz (t + k * msPerDay) = (jsGetDay tz t + k) % 7 := by
  unfold jsGetDay localDayNumber localMs msPerDay msPerMinute
  have h : t + k * 86400000 + tz * 60000 = t + tz * 60000 + k * 86400000 := by ring
  rw [h, Int.add_mul_ediv_right _ _ (by norm_num)]
  omega

/-- A rounded division of an exact multiple is exact. -/
theorem roundDiv_exact (k : Int) : roundDiv (k * msPerDay) msPerDay = k := by
  unfold roundDiv msPerDay
  omega

/-! ## Claim C1 (getQuarter) -/

/-- C1 [code_bug]: the claim says `getQuarter` follows the fixed month
ranges (month index div 3 plus 1) regardless of the time of day, and the
specification singles this rule out against the source's "boundary
quirks".  At local noon on 2024-03-31 — a March date, so quarter 1 — the
source compares the timestamp against the quarter-1 *midnight* boundary
`new Date(y, 2, 31)` and falls through every range test, returning 4. -/
theorem getQuarter_boundary_bug :
    getQuarter 0 (mkDateTs 0 2024 2 31 12 0 0 0) = 4 ∧
      quarterSpec 0 (mkDateTs 0 2024 2 31 12 0 0 0) = 1 := by
  constructor <;> rfl

/-! ## Claim C4 (dateToTimestamp) -/

/-- C4 [counterexample]: on an unrecognised date string the function does
not fail with a ParseError: it returns normally, with the NaN time value
of the invalid date (`none`). -/
theorem dateToTimestamp_no_parse_error :
    dateToTimestamp "not a date" = .ok none := rfl

/-- C4 [amended]: `dateToTimestamp` never fails; an unrecognised or
out-of-range date string yields the NaN time value (`none`), and a
recognisable date string yields the integer milliseconds since the epoch.
-/
theorem dateToTimestamp_results :
    (∀ s, ∃ r, dateToTimestamp s = .ok r) ∧
      dateToTimestamp "hello" = .ok none ∧
      dateToTimestamp "2024-02-30" = .ok none ∧
      dateToTimestamp "1970-01-01T00:00:00.000Z" = .ok (some 0) ∧
      dateToTimestamp "2024-02-01T15:00:00.000Z" = .ok (some 1706799600000) :=
  ⟨fun s => ⟨parseDate s, rfl⟩, rfl, rfl, rfl, rfl⟩

/-! ## Claim C2 (getWorkSchedule validation) -/

/-- C2 [counterexample]: with `countWorkDays = 0` — a contract violation
per the claim — the function does not fail with InvalidArgument: it
returns an ordinary (empty) schedule. -/
theorem getWorkSchedule_zero_workdays_ok :
    getWorkSchedule 0 "01-01-2024" "05-01-2024" 0 3 = .ok [] := rfl

/-- The working-day test can never pass when `countWorkDays ≤ 0`: the JS
remainder of the nonnegative day counter is NaN (divisor 0, comparison
false) or nonnegative, hence not below `countWorkDays`. -/
theorem jsWorkCond_nonpos (i : Nat) (wd od : Int) (hwd : wd ≤ 0) :
    jsWorkCond i wd od = false := by
  unfold jsWorkCond
  split_ifs with h
  · rfl
  · simp only [decide_eq_false_iff_not, not_lt]
    exact le_trans hwd (Int.tmod_nonneg _ (Int.natCast_nonneg i))

/-- C2 [amended]: `getWorkSchedule` performs no argument validation and
never fails: every call returns an ordinary array, and whenever
`countWorkDays` is zero or negative the schedule is simply empty (no day
ever passes the working-day test). -/
theorem getWorkSchedule_no_validation (tz : Int) (ps pe : String) (wd od : Int) :
    (∃ l, getWorkSchedule tz ps pe wd od = .ok l) ∧
      (wd ≤ 0 → getWorkSchedule tz ps pe wd od = .ok []) := by
  constructor
  · unfold getWorkSchedule
    rcases parseDmy ps with _ | ⟨sd, sm, sy⟩ <;> rcases parseDmy pe with _ | ⟨ed, em, ey⟩ <;>
      exact ⟨_, rfl⟩
  · intro hwd
    unfold getWorkSchedule
    rcases parseDmy ps with _ | ⟨sd, sm, sy⟩ <;> rcases parseDmy pe with _ | ⟨ed, em, ey⟩ <;>
      try rfl
    simp only [Except.ok.injEq]
    rw [List.filterMap_eq_nil_iff]
    intro i _
    rw [jsWorkCond_nonpos _ _ _ hwd]
    rfl

/-- C2 [witness]: the amended theorem applied to the specification's
example period with `countWorkDays = 0`. -/
theorem getWorkSchedule_no_validation_witness :
    (∃ l, getWorkSchedule 0 "01-01-2024" "10-01-2024" 0 1 = .ok l) ∧
      getWorkSchedule 0 "01-01-2024" "10-01-2024" 0 1 = .ok [] :=
  ⟨(getWorkSchedule_no_validation 0 "01-01-2024" "10-01-2024" 0 1).1,
    (getWorkSchedule_no_validation 0 "01-01-2024" "10-01-2024" 0 1).2 (by norm_num)⟩

/-! ## Claim C7 (getCountDaysOnPeriod) -/

/-- C7 [counterexample]: two ISO strings denoting the very same UTC
calendar day (2024-02-01, at 00:00 and at 23:00) yield a count of 2, not
1: the rounded difference of 23 hours is one day. -/
theorem getCountDaysOnPeriod_same_day_two :
    getCountDaysOnPeriod "2024-02-01T00:00:00.000Z" "2024-02-01T23:00:00.000Z" = some 2 ∧
      parseDate "2024-02-01T00:00:00.000Z" = some 1706745600000 ∧
      parseDate "2024-02-01T23:00:00.000Z" = some 1706828400000 ∧
      utcDayNumber 1706745600000 = utcDayNumber 1706828400000 :=
  ⟨rfl, rfl, rfl, rfl⟩

/-- C7 [amended]: on parseable period endpoints the function returns
round((end - start) / 1 day) + 1, and the count is 1 exactly when the two
strings denote the same instant (as the specification's equal date-only
example strings do). -/
theorem getCountDaysOnPeriod_formula (s1 s2 : String) (t1 t2 : Int)
    (h1 : parseDate s1 = some t1) (h2 : parseDate s2 = some t2) (hle : t1 ≤ t2) :
    getCountDaysOnPeriod s1 s2 = some (periodDaysSpec t1 t2) ∧
      (t1 = t2 → getCountDaysOnPeriod s1 s2 = some 1) := by
  unfold getCountDaysOnPeriod periodDaysSpec
  rw [h1, h2]
  refine ⟨rfl, fun he => ?_⟩
  subst he
  unfold roundDiv msPerDay
  norm_num

/-- C7 [witness]: the specification's same-day example, via the theorem. -/
theorem getCountDaysOnPeriod_formula_witness :
    getCountDaysOnPeriod "2024-02-01" "2024-02-01" = some 1 :=
  (getCountDaysOnPeriod_formula "2024-02-01" "2024-02-01" 1706745600000 1706745600000
    rfl rfl (le_refl _)).2 rfl

/-! ## Claims C10 and C3 (getWeekNumberByDate) -/

/-- The guard of the adjustment loop is unsatisfiable: a weekday is never
both greater than 4 and less than 1. -/
theorem adjustCond_false (tz ts : Int) : adjustCond tz ts = false := by
  obtain ⟨hb0, hb1⟩ := jsGetDay_bounds tz ts
  unfold adjustCond
  by_cases h : jsGetDay tz ts < 1
  · simp [show ¬jsGetDay tz ts > 4 by omega]
  · simp [h]

/-- The adjustment loop never moves the reference day. -/
theorem adjustLoop_id (tz : Int) (fuel : Nat) (ts : Int) : adjustLoop tz fuel ts = ts := by
  cases fuel with
  | zero => rfl
  | succ n =>
      unfold adjustLoop
      rw [adjustCond_false]
      simp

/-- The week number is exactly the unadjusted day-count formula. -/
theorem weekNumber_eq_spec (tz : Int) (fuel : Nat) (t : Int) :
    getWeekNumberByDate tz fuel t = weekNumberSpec tz t := by
  unfold getWeekNumberByDate weekNumberSpec
  rw [adjustLoop_id]

/-- C10 [confirmed]: the adjustment loop's guard is unsatisfiable, so for
every date the function equals
floor(round((date - January 1 of its year) / 86400000) / 7) + 1, never
adjusting for the weekday of January 1. -/
theorem getWeekNumberByDate_never_adjusts (tz : Int) (fuel : Nat) (t ts : Int) :
    adjustCond tz ts = false ∧ getWeekNumberByDate tz fuel t = weekNumberSpec tz t :=
  ⟨adjustCond_false tz ts, weekNumber_eq_spec tz fuel t⟩

/-- C3 [counterexample]: the result is not the ISO-8601 week number.
2023-01-05 is the first Thursday of 2023 (so its Monday-started week is
ISO week 1) and 2023-01-08 lies in the same Monday-started week, yet the
function numbers them 1 and 2. -/
theorem getWeekNumberByDate_not_iso :
    jsGetDay 0 (mkDateTs 0 2023 0 5 0 0 0 0) = 4 ∧
      mondayWeekIndex (localDayNumber 0 (mkDateTs 0 2023 0 5 0 0 0 0)) =
        mondayWeekIndex (localDayNumber 0 (mkDateTs 0 2023 0 8 0 0 0 0)) ∧
      getWeekNumberByDate 0 7 (mkDateTs 0 2023 0 5 0 0 0 0) = 1 ∧
      getWeekNumberByDate 0 7 (mkDateTs 0 2023 0 8 0 0 0 0) = 2 :=
  ⟨rfl, rfl, rfl, rfl⟩

/-- C3 [amended]: the function returns the Monday-agnostic index
floor(round((date - January 1 of its year) / 1 day) / 7) + 1; in
particular it returns 1 for 2024-01-03 and 5 for 2024-01-31, as the
specification's examples state. -/
theorem getWeekNumberByDate_examples :
    (∀ tz fuel t, getWeekNumberByDate tz fuel t = weekNumberSpec tz t) ∧
      (∀ fuel, getWeekNumberByDate 0 fuel (mkDateTs 0 2024 0 3 0 0 0 0) = 1) ∧
      (∀ fuel, getWeekNumberByDate 0 fuel (mkDateTs 0 2024 0 31 0 0 0 0) = 5) := by
  refine ⟨weekNumber_eq_spec, fun fuel => ?_, fun fuel => ?_⟩ <;>
    rw [weekNumber_eq_spec] <;> rfl

/-! ## Claim C5 (getNextFriday) -/

/-- Truncating a timestamp to whole seconds does not change its local day
number: day boundaries fall on whole minutes, hence on whole seconds. -/
theorem jsDateParse_dayNumber (tz t : Int) :
    localDayNumber tz (jsDateParse t) = localDayNumber tz t := by
  unfold jsDateParse localDayNumber localMs msPerDay msPerMinute
  omega

/-- C5 [counterexample]: on a Friday whose time value has a nonzero
millisecond part, the result is not exactly 7 days later:
`Date.parse(date)` goes through `toString` and drops the 500 ms, so the
result is 7 days minus half a second after the input. -/
theorem getNextFriday_drops_milliseconds :
    jsGetDay 0 (utcTs 2024 2 16 0 0 0 500) = 5 ∧
      getNextFriday 0 (utcTs 2024 2 16 0 0 0 500) ≠
        utcTs 2024 2 16 0 0 0 500 + 7 * msPerDay ∧
      getNextFriday 0 (utcTs 2024 2 16 0 0 0 500) =
        utcTs 2024 2 16 0 0 0 500 - 500 + 7 * msPerDay :=
  ⟨rfl, by decide, rfl⟩

/-- C5 [amended]: the result of `getNextFriday` always falls on a Friday
and is strictly later than the input, never the same day; when the input
is itself a Friday the result is 7 days after the input truncated to
whole seconds — `t - (t mod 1000) + 7 days` — hence exactly 7 days later
whenever the input's millisecond part is zero. -/
theorem getNextFriday_props (tz t : Int) :
    jsGetDay tz (getNextFriday tz t) = 5 ∧ t < getNextFriday tz t ∧
      (jsGetDay tz t = 5 → getNextFriday tz t = t - t % 1000 + 7 * msPerDay) ∧
      (jsGetDay tz t = 5 → t % 1000 = 0 → getNextFriday tz t = t + 7 * msPerDay) := by
  obtain ⟨d, hd⟩ : ∃ d, jsGetDay tz t = d := ⟨_, rfl⟩
  obtain ⟨hb0, hb1⟩ := jsGetDay_bounds tz t
  rw [hd] at hb0 hb1
  have hpd : jsGetDay tz (jsDateParse t) = d := by
    unfold jsGetDay
    rw [jsDateParse_dayNumber]
    exact hd
  have key : ∀ k : Int, jsGetDay tz (msPerDay * k + jsDateParse t) = (d + k) % 7 := by
    intro k
    have h : msPerDay * k + jsDateParse t = jsDateParse t + k * msPerDay := by ring
    rw [h, jsGetDay_add_days, hpd]
  have hr0 : 0 ≤ t % 1000 := Int.emod_nonneg _ (by norm_num)
  have hr1 : t % 1000 < 1000 := Int.emod_lt_of_pos _ (by norm_num)
  unfold getNextFriday
  rw [hd]
  refine ⟨?_, ?_, fun h5 => ?_, fun h5 hms => ?_⟩
  · rw [key]
    unfold bibl
    interval_cases d <;> norm_num
  · have h1 : 1 ≤ bibl d := by unfold bibl; interval_cases d <;> norm_num
    unfold jsDateParse msPerDay
    nlinarith
  · rw [h5]
    unfold bibl jsDateParse msPerDay
    norm_num
    omega
  · rw [h5]
    unfold bibl jsDateParse msPerDay
    norm_num
    omega

/-- C5 [witness]: 2024-02-16 00:00:00.000 UTC was a Friday with zero
milliseconds; the theorem gives a result exactly 7 days later. -/
theorem getNextFriday_props_witness :
    getNextFriday 0 (utcTs 2024 2 16 0 0 0 0) = utcTs 2024 2 16 0 0 0 0 + 7 * msPerDay :=
  (getNextFriday_props 0 (utcTs 2024 2 16 0 0 0 0)).2.2.2 rfl rfl

/-! ## Claim C8 (weekend/weekday partition of a month) -/

/-- The day number is linear in the day-of-month argument. -/
theorem daysFromCivil_day (y m d : Int) :
    daysFromCivil y m d = daysFromCivil y m 1 + (d - 1) := by
  unfold daysFromCivil dcDoe dcDoy
  ring

/-- Every month has between 1 and 31 days. -/
theorem monthLen_bounds (y m : Int) : 1 ≤ monthLen y m ∧ monthLen y m ≤ 31 := by
  unfold monthLen
  repeat' split
  all_goals omega

/-- The first of the following month is `monthLen` days after the first of
the month. -/
theorem daysFromCivil_next_month (y m : Int) (h1 : 1 ≤ m) (h2 : m ≤ 12) :
    (if m = 12 then daysFromCivil (y + 1) 1 1 else daysFromCivil y (m + 1) 1) =
      daysFromCivil y m 1 + monthLen y m := by
  unfold daysFromCivil dcDoe dcDoy dcShiftYear monthLen isLeap
  simp only [Bool.or_eq_true, Bool.and_eq_true, beq_iff_eq, bne_iff_ne]
  interval_cases m <;> norm_num <;> (try split_ifs) <;> omega

/-- Local day number of a locally-constructed midnight. -/
theorem mkDateTs_midnight_day (tz y mi d : Int) :
    localDayNumber tz (mkDateTs tz y mi d 0 0 0 0) =
      daysFromCivil (y + mi / 12) (mi % 12 + 1) d := by
  unfold localDayNumber localMs mkDateTs msPerDay msPerMinute msPerHour msPerSecond
  omega

/-- `new Date(year, month, 0).getDate()` — month here the 1-based month as
a 0-based index of the following month — is the length of the month. -/
theorem jsGetDate_mk_day0 (tz y month : Int) (h1 : 1 ≤ month) (h2 : month ≤ 12) :
    jsGetDate tz (mkDateTs tz y month 0 0 0 0 0) = monthLen y month := by
  unfold jsGetDate
  rw [mkDateTs_midnight_day]
  have hnext := daysFromCivil_next_month y month h1 h2
  obtain ⟨hml1, hml2⟩ := monthLen_bounds y month
  have key : daysFromCivil (y + month / 12) (month % 12 + 1) 0 =
      daysFromCivil y month (monthLen y month) := by
    rw [daysFromCivil_day (y + month / 12) (month % 12 + 1) 0,
      daysFromCivil_day y month (monthLen y month)]
    by_cases h12 : month = 12
    · subst h12
      rw [if_pos rfl] at hnext
      norm_num
      omega
    · rw [if_neg h12] at hnext
      have e1 : y + month / 12 = y := by omega
      have e2 : month % 12 + 1 = month + 1 := by omega
      rw [e1, e2]
      omega
  rw [key, civil_roundtrip y month (monthLen y month) h1 h2 hml1 (le_refl _)]

/-- `getCountDaysInMonth` computes the month length. -/
theorem getCountDaysInMonth_eq (tz month year : Int) (h1 : 1 ≤ month) (h2 : month ≤ 12) :
    getCountDaysInMonth tz month year = monthLen year month := by
  unfold getCountDaysInMonth
  have hnext := daysFromCivil_next_month year month h1 h2
  have key : mkDateTs tz year month 1 0 0 0 0 - mkDateTs tz year (month - 1) 1 0 0 0 0
      = monthLen year month * msPerDay := by
    unfold mkDateTs
    by_cases h12 : month = 12
    · subst h12
      rw [if_pos rfl] at hnext
      have e1 : (12 : Int) / 12 = 1 := by norm_num
      have e2 : (12 : Int) % 12 = 0 := by norm_num
      have e3 : (12 - 1 : Int) / 12 = 0 := by norm_num
      have e4 : (12 - 1 : Int) % 12 = 11 := by norm_num
      rw [e1, e2, e3, e4]
      unfold msPerDay msPerHour msPerMinute msPerSecond at *
      norm_num
      omega
    · rw [if_neg h12] at hnext
      have e1 : year + month / 12 = year := by omega
      have e2 : month % 12 + 1 = month + 1 := by omega
      have e3 : year + (month - 1) / 12 = year := by omega
      have e4 : (month - 1) % 12 + 1 = month := by omega
      rw [e1, e2, e3, e4]
      unfold msPerDay msPerHour msPerMinute msPerSecond at *
      omega
  rw [key, roundDiv_exact]

/-- The counts of a predicate and of its negation add up to the length. -/
theorem countP_not_partition {α : Type} (p : α → Bool) (l : List α) :
    ((l.countP p : Nat) : Int) + ((l.countP (fun a => !(p a)) : Nat) : Int) =
      (l.length : Int) := by
  induction l with
  | nil => rfl
  | cons a l ih =>
      simp only [List.countP_cons, List.length_cons]
      by_cases h : p a = true <;> simp only [h, Bool.not_true, Bool.not_false] <;>
        push_cast <;> push_cast at ih <;> omega

/-- C8 [confirmed]: for months 1..12 of four-digit years, the weekend
count plus the non-weekend count equals `getCountDaysInMonth`: the two
classes partition the days of the month, and the weekend count never
exceeds the month length. -/
theorem getCountWeekendsInMonth_partition (tz month year : Int)
    (hm1 : 1 ≤ month) (hm2 : month ≤ 12) (hy1 : 1000 ≤ year) (hy2 : year ≤ 9999) :
    getCountWeekendsInMonth tz month year + nonWeekendCount tz month year =
      getCountDaysInMonth tz month year := by
  obtain ⟨hml1, hml2⟩ := monthLen_bounds year month
  simp only [getCountWeekendsInMonth, nonWeekendCount]
  rw [jsGetDate_mk_day0 tz year month hm1 hm2, getCountDaysInMonth_eq tz month year hm1 hm2]
  have key := countP_not_partition
    (fun (i : Int) =>
      let currentDay := jsGetDay tz (mkDateTs tz year (month - 1) i 0 0 0 0)
      currentDay == 6 || currentDay == 0)
    ((List.range (monthLen year month).toNat).map (fun (i : Nat) => (i : Int) + 1))
  rw [List.length_map, List.length_range, Int.toNat_of_nonneg (by omega : (0:Int) ≤ monthLen year month)] at key
  exact key

/-- C8 [witness]: May 2022 has 9 weekend days and 22 weekdays, 31 in all.
-/
theorem getCountWeekendsInMonth_partition_witness :
    getCountWeekendsInMonth 0 5 2022 + nonWeekendCount 0 5 2022 =
      getCountDaysInMonth 0 5 2022 :=
  getCountWeekendsInMonth_partition 0 5 2022 (by norm_num) (by norm_num)
    (by norm_num) (by norm_num)

/-! ## Claim C9 (getNextFridayThe13th operates on a copy) -/

/-- Writing one cell leaves the others unchanged. -/
theorem heapGet_set_ne (hp : List Int) (i j : Nat) (v : Int) (h : i ≠ j) :
    heapGet (hp.set i v) j = heapGet hp j := by
  unfold heapGet
  simp [List.getD_eq_getElem?_getD, List.getElem?_set_ne h]

/-- Allocation leaves the existing cells unchanged. -/
theorem heapGet_append_lt (hp l : List Int) (j : Nat) (h : j < hp.length) :
    heapGet (hp ++ l) j = heapGet hp j := by
  unfold heapGet
  exact List.getD_append hp l 0 j h

/-- The first loop only writes cell `r`. -/
theorem fridayAdvance_frame (tz : Int) (fuel : Nat) (hp : List Int) (r j : Nat)
    (h : j ≠ r) :
    heapGet (fridayAdvance tz fuel hp r) j = heapGet hp j := by
  induction fuel generalizing hp with
  | zero => rfl
  | succ n ih =>
      unfold fridayAdvance
      split
      · rfl
      · rw [ih]
        exact heapGet_set_ne hp r j _ (fun he => h he.symm)

/-- The first loop does not allocate. -/
theorem fridayAdvance_length (tz : Int) (fuel : Nat) (hp : List Int) (r : Nat) :
    (fridayAdvance tz fuel hp r).length = hp.length := by
  induction fuel generalizing hp with
  | zero => rfl
  | succ n ih =>
      unfold fridayAdvance
      split
      · rfl
      · rw [ih, List.length_set]

/-- The second loop writes only cell `rA` and fresh cells, and never
returns a reference to a pre-existing cell other than `rRes`. -/
theorem scan13_frame (tz : Int) (fuel : Nat) (hp : List Int) (rA rRes j : Nat)
    (hj : j ≠ rA) (hlen : j < hp.length) (hres : rRes ≠ j) :
    heapGet (scan13 tz fuel hp rA rRes).1 j = heapGet hp j ∧
      (scan13 tz fuel hp rA rRes).2 ≠ j := by
  induction fuel generalizing hp rRes with
  | zero => exact ⟨rfl, hres⟩
  | succ n ih =>
      unfold scan13
      split
      · exact ⟨rfl, hres⟩
      · have hset : heapGet (bumpWeek tz hp rA ++ [heapGet (bumpWeek tz hp rA) rA]) j
            = heapGet hp j := by
          rw [heapGet_append_lt _ _ _ (by simpa [bumpWeek, List.length_set] using hlen)]
          exact heapGet_set_ne hp rA j _ (fun he => hj he.symm)
        have hlen2 : j < (bumpWeek tz hp rA ++ [heapGet (bumpWeek tz hp rA) rA]).length := by
          simp only [List.length_append, bumpWeek, List.length_set, List.length_cons]
          omega
        have hres2 : (bumpWeek tz hp rA).length ≠ j := by
          simp only [bumpWeek, List.length_set]
          omega
        obtain ⟨ha, hb⟩ := ih (bumpWeek tz hp rA ++ [heapGet (bumpWeek tz hp rA) rA])
          (bumpWeek tz hp rA).length hlen2 hres2
        exact ⟨ha.trans hset, hb⟩

/-- C9 [confirmed]: `getNextFridayThe13th` copies its argument before any
mutation: after the call the `Date` object passed in holds its original
value, and the returned `Date` is a different object (a fresh cell). -/
theorem getNextFridayThe13th_copies (tz : Int) (fuel1 fuel2 : Nat)
    (hp : List Int) (r : Nat) (h : r < hp.length) :
    heapGet (getNextFridayThe13th tz fuel1 fuel2 hp r).1 r = heapGet hp r ∧
      (getNextFridayThe13th tz fuel1 fuel2 hp r).2 ≠ r := by
  have hlen1 : (ft13Heap1 hp r).length = hp.length + 1 := by
    simp [ft13Heap1]
  have hlen2 : (ft13Heap2 tz hp r).length = hp.length + 1 := by
    simp [ft13Heap2, List.length_set, hlen1]
  have hlen3 : (ft13Heap3 tz hp r).length = hp.length + 2 := by
    simp [ft13Heap3, hlen2]
  have hpre : heapGet (ft13Heap3 tz hp r) r = heapGet hp r := by
    rw [ft13Heap3, heapGet_append_lt _ _ _ (by omega)]
    rw [ft13Heap2, heapGet_set_ne _ _ _ _ (by omega)]
    rw [ft13Heap1, heapGet_append_lt _ _ _ h]
  unfold getNextFridayThe13th
  obtain ⟨ha, hb⟩ := scan13_frame tz fuel2
    (fridayAdvance tz fuel1 (ft13Heap3 tz hp r) hp.length) hp.length
    ((ft13Heap2 tz hp r).length) r (by omega)
    (by rw [fridayAdvance_length, hlen3]; omega) (by omega)
  refine ⟨ha.trans ?_, hb⟩
  rw [fridayAdvance_frame _ _ _ _ _ (by omega), hpre]

/-- C9 [witness]: the framing theorem at a concrete one-object heap
(2024-01-13). -/
theorem getNextFridayThe13th_copies_witness :
    heapGet (getNextFridayThe13th 0 7 70 [1705104000000] 0).1 0
        = heapGet [1705104000000] 0 ∧
      (getNextFridayThe13th 0 7 70 [1705104000000] 0).2 ≠ 0 :=
  getNextFridayThe13th_copies 0 7 70 [1705104000000] 0 (by norm_num)

/-! ## Claim C6 (formatDate) -/

/-- Local minutes lie in 0..59. -/
theorem jsGetMinutes_bounds (tz t : Int) :
    0 ≤ jsGetMinutes tz t ∧ jsGetMinutes tz t < 60 := by
  unfold jsGetMinutes
  exact ⟨Int.emod_nonneg _ (by norm_num), Int.emod_lt_of_pos _ (by norm_num)⟩

/-- Local seconds lie in 0..59. -/
theorem jsGetSeconds_bounds (tz t : Int) :
    0 ≤ jsGetSeconds tz t ∧ jsGetSeconds tz t < 60 := by
  unfold jsGetSeconds
  exact ⟨Int.emod_nonneg _ (by norm_num), Int.emod_lt_of_pos _ (by norm_num)⟩

/-- Hours lie in 0..23. -/
theorem jsGetHours_bounds (tz t : Int) :
    0 ≤ jsGetHours tz t ∧ jsGetHours tz t < 24 := by
  have h1 : 0 ≤ msOfDay tz t := by
    unfold msOfDay msPerDay
    exact Int.emod_nonneg _ (by norm_num)
  have h2 : msOfDay tz t < 86400000 := by
    unfold msOfDay msPerDay
    exact Int.emod_lt_of_pos _ (by norm_num)
  unfold jsGetHours msPerHour
  omega

/-- Printing a natural number as an `Int` is printing it as a `Nat`. -/
theorem toString_int_natCast (m : Nat) : toString ((m : Int)) = toString m := rfl

/-- On the two-digit range, JS string padding agrees with numeric
zero-padding. -/
theorem padStart2_pad2_nat :
    ∀ m : Nat, m < 60 → padStart2 (toString ((m : Int))) = pad2 ((m : Int)) := by
  decide

/-- On the two-digit range, the JS string-vs-number comparison
`paddedString > 0` holds exactly for a positive value. -/
theorem jsStrGtZero_pad_nat :
    ∀ m : Nat, m < 60 →
      jsStrGtZero (padStart2 (toString ((m : Int)))) = decide ((0 : Int) < (m : Int)) := by
  decide

/-- `padStart2`/`pad2` agreement, Int form. -/
theorem padStart2_pad2_int (n : Int) (h0 : 0 ≤ n) (h1 : n < 60) :
    padStart2 (toString n) = pad2 n := by
  have h := padStart2_pad2_nat n.toNat (by omega)
  rwa [Int.toNat_of_nonneg h0] at h

/-- String-vs-number comparison agreement, Int form. -/
theorem jsStrGtZero_pad_int (n : Int) (h0 : 0 ≤ n) (h1 : n < 60) :
    jsStrGtZero (padStart2 (toString n)) = decide (0 < n) := by
  have h := jsStrGtZero_pad_nat n.toNat (by omega)
  rwa [Int.toNat_of_nonneg h0] at h

/-- The quirky string computation of `formatDateFromTime` produces exactly
the characterised format of `formatDateSpec`, for every timestamp and
timezone offset. -/
theorem formatDateFromTime_eq_spec (tz t : Int) :
    formatDateFromTime tz t = formatDateSpec tz t := by
  obtain ⟨hm0, hm1⟩ := jsGetMinutes_bounds tz t
  obtain ⟨hs0, hs1⟩ := jsGetSeconds_bounds tz t
  obtain ⟨hh0, hh1⟩ := jsGetHours_bounds 0 t
  simp only [formatDateFromTime, formatDateSpec, jsGetUTCHours, jsGetUTCDate]
  rw [jsStrGtZero_pad_int _ hm0 hm1, padStart2_pad2_int _ hm0 hm1,
    padStart2_pad2_int _ hs0 hs1]
  by_cases hgt : jsGetHours 0 t > 12
  · have hne : ((jsGetHours 0 t - 12 == 12) : Bool) = false := by
      rw [beq_eq_false_iff_ne]
      omega
    simp [hgt, hne]
  · by_cases h12 : jsGetHours 0 t = 12
    · by_cases hmi : 0 < jsGetMinutes tz t
      · simp [hgt, h12, hmi]
      · simp [hgt, h12, hmi]
    · have hne : ((jsGetHours 0 t == 12) : Bool) = false := by
        rw [beq_eq_false_iff_ne]
        exact h12
      simp [hgt, h12, hne]

/-- C6 [counterexample]: the displayed hour is not in 1..12 and the
AM/PM suffix is wrong at noon.  At 00:30 UTC the string shows hour 0
("0:30:00 AM"), and at 12:00:59 UTC it shows "AM" because the padded
minutes string "00" is not numerically greater than 0. -/
theorem formatDate_midnight_noon :
    formatDate 0 "2024-02-01T00:30:00.000Z" = "2/1/2024, 0:30:00 AM" ∧
      formatDate 0 "2010-12-15T12:00:59.000Z" = "12/15/2010, 12:00:59 AM" :=
  ⟨rfl, rfl⟩

/-- C6 [amended]: for every parseable ISO date string, `formatDate`
produces "M/D/YYYY, h:mm:ss AM|PM" with no leading zero on month or hour,
day and hour read in UTC and minute and second in local time — where the
displayed hour is the UTC hour reduced by 12 only when strictly greater
than 12 (0..12, with 0 at midnight), and the suffix is PM exactly when the
UTC hour exceeds 12, or equals 12 with a nonzero local minute. -/
theorem formatDate_spec (tz : Int) (s : String) (t : Int)
    (h : parseDate s = some t) : formatDate tz s = formatDateSpec tz t := by
  unfold formatDate
  rw [h]
  exact formatDateFromTime_eq_spec tz t

/-- C6 [witness]: the amended theorem at the documented example
'2024-02-01T15:00:00.000Z' => '2/1/2024, 3:00:00 PM'. -/
theorem formatDate_spec_witness :
    parseDate "2024-02-01T15:00:00.000Z" = some 1706799600000 ∧
      formatDate 0 "2024-02-01T15:00:00.000Z" = formatDateSpec 0 1706799600000 :=
  ⟨rfl, formatDate_spec 0 "2024-02-01T15:00:00.000Z" 1706799600000 rfl⟩
end CoreJsDates
